/-
Verification of the authentication core documented in
apps/rollyourownauth+aio/DOCS/auth-todo.mdx and the custom-auth notes.

The repository's auth logic exists as TypeScript snippets (Prisma-backed).
This file gives a shallow embedding: the Prisma store is an explicit record
of table rows, each snippet becomes a Lean function over that store, wall
clock time and randomness are explicit parameters, and Prisma errors are
`Except` values.  Timestamps are integers in milliseconds since the epoch,
matching JavaScript `Date.now()`.
-/

import Mathlib

namespace RyoaAuth

/-! Data model: mirrors the Prisma schemas in auth-todo.mdx: `User` (user.prisma) and
`Session` (session.prisma).  Fields irrelevant to any operation here
(timestamps maintained by the store, profile relation) carry through as
plain data. -/

inductive UserRole where
  | ADMIN
  | USER
deriving Repr, DecidableEq

structure User where
  id : String
  username : String
  email : String
  password : String
  role : UserRole := .USER
  failedLoginAttempts : Nat := 0
deriving Repr, DecidableEq

structure Session where
  id : String
  userId : String
  sessionToken : String
  expiresAt : Int
  ipAddress : Option String := none
  userAgent : Option String := none
deriving Repr, DecidableEq

/-- The persisted database state: the `users` and `sessions` tables. -/
structure Store where
  users : List User
  sessions : List Session
deriving Repr, DecidableEq

/-- Errors surfaced by the Prisma client to the snippets. -/
inductive DbError where
  /-- P2002: unique-constraint violation on insert. -/
  | uniqueViolation
  /-- P2025: `delete` on a record that does not exist. -/
  | recordNotFound
deriving Repr, DecidableEq

/-! Session token generator, from generate-session-token.ts:
`randomBytes(bytes).toString('hex')`.  The random source is explicit: the
caller passes the drawn bytes.  `toString('hex')` encodes each byte as two
lowercase hexadecimal characters. -/

/-- The sixteen lowercase hexadecimal digit characters, indexed by `n % 16`. -/
def hexDigit (n : Nat) : Char :=
  match n % 16 with
  | 0 => '0' | 1 => '1' | 2 => '2' | 3 => '3'
  | 4 => '4' | 5 => '5' | 6 => '6' | 7 => '7'
  | 8 => '8' | 9 => '9' | 10 => 'a' | 11 => 'b'
  | 12 => 'c' | 13 => 'd' | 14 => 'e' | _ => 'f'

/-- One byte rendered as its two hex characters, as in Node's
`Buffer.toString('hex')`. -/
def byteToHex (b : Nat) : List Char :=
  [hexDigit (b / 16), hexDigit b]

/-- Function `generateSessionToken` from generate-session-token.ts, with the
bytes drawn from the random source passed in explicitly. -/
def generateSessionToken (bytes : List Nat) : String :=
  String.mk (bytes.flatMap byteToHex)

/-! Session expiry, from generate-session-expiry.ts:
`new Date(Date.now() + hours * 60 * 60 * 1000)`.  `now` is the current time
in milliseconds. -/

/-- Function `generateSessionExpiry` from generate-session-expiry.ts. -/
def generateSessionExpiry (now : Int) (hours : Int := 24) : Int :=
  now + hours * 60 * 60 * 1000

/-! Credential hasher.  hash-password.ts and verify-password.ts delegate to
the external `bcrypt` library, whose internals are not part of this
repository; the digest format and the compare algorithm are modelled from
the spec's description of the hasher (self-describing digest: version tag,
two-digit cost factor and 22-character salt embedded in the output, followed
by the output of the cost- and salt-keyed one-way core).  The core
key-derivation function is an explicit parameter `f : cost → salt →
password → text`, so nothing here depends on its internals. -/

/-- Two-digit cost field of a bcrypt digest (bcrypt zero-pads the cost). -/
def costField (cost : Nat) : String :=
  if cost < 10 then "0" ++ toString cost else toString cost

/-- Modelled from the spec: `bcrypt.hash` with the drawn salt made explicit.
Produces the self-describing digest
`"$2b$" ++ cost ++ "$" ++ salt ++ f cost salt password`. -/
def bcryptHashWith (f : Nat → String → String → String)
    (cost : Nat) (salt password : String) : String :=
  "$2b$" ++ costField cost ++ "$" ++ salt ++ f cost salt password

/-- Numeric value of a decimal digit character, `none` otherwise. -/
def digitVal? (c : Char) : Option Nat :=
  if '0' ≤ c ∧ c ≤ '9' then some (c.toNat - '0'.toNat) else none

/-- Parse exactly two decimal digit characters as a number. -/
def parseCost2 (cs : List Char) : Option Nat :=
  match cs with
  | [c1, c2] =>
      match digitVal? c1, digitVal? c2 with
      | some d1, some d2 => some (10 * d1 + d2)
      | _, _ => none
  | _ => none

/-- Modelled from the spec: parsing a digest into the cost, the 22-character
salt and the stored core output; `none` on malformed input. -/
def bcryptParse (digest : String) : Option (Nat × String × String) :=
  let cs := digest.data
  if cs.take 4 = ['$', '2', 'b', '$'] ∧ (cs.drop 6).take 1 = ['$'] then
    match parseCost2 ((cs.drop 4).take 2) with
    | some cost =>
        some (cost, String.mk ((cs.drop 7).take 22), String.mk ((cs.drop 7).drop 22))
    | none => none
  else none

/-- Modelled from the spec: `bcrypt.compare` — recompute the core with the
parameters embedded in the digest and compare; fails only when the digest
does not parse. -/
def bcryptCompareWith (f : Nat → String → String → String)
    (password digest : String) : Except String Bool :=
  match bcryptParse digest with
  | some (cost, salt, stored) => .ok (f cost salt password == stored)
  | none => .error "Invalid hash"

/-- Function `hashPassword` from hash-password.ts (and utils/hash.ts):
`bcrypt.hash(password, saltRounds)` with `saltRounds = 10`; the salt bcrypt
draws is the explicit `salt` argument. -/
def hashPassword (f : Nat → String → String → String)
    (salt password : String) : String :=
  bcryptHashWith f 10 salt password

/-- Function `verifyPassword` from verify-password.ts:
`bcrypt.compare(password, hash)`. -/
def verifyPassword (f : Nat → String → String → String)
    (password hash : String) : Except String Bool :=
  bcryptCompareWith f password hash

/-! Session store accessor and registration, from generate-session.ts,
invalidate-session.ts and register-user.ts.  The Prisma client calls are
modelled on the explicit `Store`; uniqueness checks mirror the `@unique`
constraints of the schemas (P2002 on violation), and `delete` mirrors
Prisma's record-not-found rejection (P2025). -/

/-- Call `prisma.user.create`: inserts the row, failing with a
unique-constraint violation when the id, username or email is taken
(`@id`, `username @unique`, `email @unique` in user.prisma). -/
def dbUserCreate (st : Store) (u : User) : Except DbError (Store × User) :=
  if st.users.any fun v => v.id == u.id || v.username == u.username || v.email == u.email then
    .error .uniqueViolation
  else
    .ok ({ st with users := st.users ++ [u] }, u)

/-- Call `prisma.session.create`: inserts the row, failing with a
unique-constraint violation when the id or the session token is taken
(`@id`, `sessionToken @unique` in session.prisma). -/
def dbSessionCreate (st : Store) (s : Session) : Except DbError (Store × Session) :=
  if st.sessions.any fun t => t.id == s.id || t.sessionToken == s.sessionToken then
    .error .uniqueViolation
  else
    .ok ({ st with sessions := st.sessions ++ [s] }, s)

/-- Function `createSession` from generate-session.ts: builds the row with
one generated token and one generated expiry, and performs a single
`prisma.session.create`.  `randBytes i` is what the i-th
`generateSessionToken()` call of this request would draw; the code makes
exactly one call, so only `randBytes 0` is ever used.  `newId` is the cuid
the store assigns. -/
def createSession (st : Store) (newId : String) (randBytes : Nat → List Nat)
    (now : Int) (userId : String)
    (ipAddress : Option String := none) (userAgent : Option String := none) :
    Except DbError (Store × Session) :=
  dbSessionCreate st
    { id := newId
      userId := userId
      sessionToken := generateSessionToken (randBytes 0)
      expiresAt := generateSessionExpiry now
      ipAddress := ipAddress
      userAgent := userAgent }

/-- Function `invalidateSession` from invalidate-session.ts:
`prisma.session.delete` on the unique `sessionToken`.  Prisma's `delete`
rejects with record-not-found (P2025) when no row matches; on success it
removes the row and returns the deleted record. -/
def invalidateSession (st : Store) (sessionToken : String) :
    Except DbError (Store × Session) :=
  match st.sessions.find? fun s => s.sessionToken == sessionToken with
  | none => .error .recordNotFound
  | some s =>
      .ok ({ st with
              sessions := st.sessions.filter fun t => !(t.sessionToken == sessionToken) }, s)

/-- Function `getValidSession` from the server/mutation block of
auth-todo.mdx (lines 234-246): `prisma.session.findUnique` on the unique
`sessionToken` with the additional filter `expiresAt: { gt: new Date() }`,
with `include: { user: true }` joining the owning user. -/
def getValidSession (st : Store) (now : Int) (sessionToken : String) :
    Option (Session × User) :=
  match st.sessions.find? fun s => s.sessionToken == sessionToken && now < s.expiresAt with
  | none => none
  | some s => (st.users.find? fun u => u.id == s.userId).map fun u => (s, u)

/-- Function `getValidSession` from the server/queries block of
auth-todo.mdx (lines 259-271): the second, duplicated definition —
`prisma.session.findUnique` on `sessionToken` with
`expiresAt: { gt: new Date() }` and `include: { user: true }`. -/
def getValidSessionQueries (st : Store) (now : Int) (sessionToken : String) :
    Option (Session × User) :=
  match st.sessions.find? fun s => s.sessionToken == sessionToken && now < s.expiresAt with
  | none => none
  | some s => (st.users.find? fun u => u.id == s.userId).map fun u => (s, u)

/-- Function `registerUser` from register-user.ts: hashes the password with
`hashPassword`, then `db.user.create` with the email, the hashed password
and the username.  `newId` is the cuid the store assigns and `salt` the salt
bcrypt draws. -/
def registerUser (f : Nat → String → String → String) (salt : String)
    (st : Store) (newId email password username : String) :
    Except DbError (Store × User) :=
  let hashedPassword := hashPassword f salt password
  dbUserCreate st
    { id := newId
      username := username
      email := email
      password := hashedPassword }

/-- Modelled from the spec: the Register flow of spec section 4.5 — persist
the User (`registerUser`), then auto-issue a session (`createSession`).  No
transaction wrapper appears anywhere in the source snippets, so each store
write commits as it happens; the result pairs the committed store with the
flow outcome. -/
def registerFlow (f : Nat → String → String → String) (salt : String)
    (st : Store) (newUserId newSessionId : String) (randBytes : Nat → List Nat)
    (now : Int) (email password username : String) :
    Store × Except DbError (User × Session) :=
  match registerUser f salt st newUserId email password username with
  | .error e => (st, .error e)
  | .ok (st1, u) =>
      match createSession st1 newSessionId randBytes now u.id with
      | .error e => (st1, .error e)
      | .ok (st2, s) => (st2, .ok (u, s))

/-- Decidable equality for `Except` results, so that concrete runs of the
store operations can be checked by evaluation. -/
instance {ε α : Type} [DecidableEq ε] [DecidableEq α] : DecidableEq (Except ε α) :=
  fun a b =>
    match a, b with
    | .error e1, .error e2 =>
        if h : e1 = e2 then .isTrue (by rw [h])
        else .isFalse (by intro hc; cases hc; exact h rfl)
    | .error _, .ok _ => .isFalse (by intro hc; cases hc)
    | .ok _, .error _ => .isFalse (by intro hc; cases hc)
    | .ok a1, .ok a2 =>
        if h : a1 = a2 then .isTrue (by rw [h])
        else .isFalse (by intro hc; cases hc; exact h rfl)

/-! Concrete instances used by the closed witnesses and counterexamples. -/

/-- A concrete stand-in for the bcrypt core, used only to instantiate the
parametric theorems at closed inputs: it echoes the password. -/
def idCore : Nat → String → String → String := fun _ _ pw => pw

/-- A concrete 22-character salt for closed instantiations. -/
def salt22 : String := "aaaaaaaaaaaaaaaaaaaaaa"

/-- The user row `registerUser` persists for the concrete registration
`registerUser idCore salt22 _ "u1" "a@x.com" "pw123!" "alice"`. -/
def regUserRow : User :=
  { id := "u1", username := "alice", email := "a@x.com",
    password := hashPassword idCore salt22 "pw123!" }

/-- A concrete user for closed instantiations of the lookup theorems. -/
def userW : User :=
  { id := "u1", username := "alice", email := "a@x.com", password := "h" }

/-- A concrete session owned by `userW`, token `tok`, expiring at 1000 ms. -/
def sessW : Session :=
  { id := "s1", userId := "u1", sessionToken := "tok", expiresAt := 1000 }

/-- A concrete one-user, one-session store. -/
def storeW : Store := { users := [userW], sessions := [sessW] }

/-! Helper lemmas about the digest format and the hex encoding. -/

/-- Character-level shape of a digest produced by `hashPassword`. -/
theorem hashPassword_data (f : Nat → String → String → String) (salt p : String) :
    (hashPassword f salt p).data =
      '$' :: '2' :: 'b' :: '$' :: '1' :: '0' :: '$' :: (salt.data ++ (f 10 salt p).data) := by
  show ("$2b$" ++ costField 10 ++ "$" ++ salt ++ f 10 salt p).data = _
  have hc : costField 10 = "10" := rfl
  rw [hc]
  simp [String.data_append]

/-- Parsing inverts hashing: a digest produced by `hashPassword` with a
22-character salt parses back to cost 10, that salt and the core output. -/
theorem bcryptParse_hashPassword (f : Nat → String → String → String)
    (salt p : String) (hs : salt.data.length = 22) :
    bcryptParse (hashPassword f salt p) = some (10, salt, f 10 salt p) := by
  unfold bcryptParse
  rw [hashPassword_data]
  simp only [List.take_cons, List.drop_succ_cons, List.drop_zero]
  norm_num
  rw [List.take_left' hs, List.drop_left' hs]
  rfl

/-- Length of the hex encoding: two characters per byte. -/
theorem flatMap_byteToHex_length (bytes : List Nat) :
    (bytes.flatMap byteToHex).length = 2 * bytes.length := by
  induction bytes with
  | nil => rfl
  | cons b bs ih => simp [List.flatMap_cons, byteToHex, ih]; ring

/-- Every character `hexDigit` produces is a lowercase hexadecimal digit. -/
theorem hexDigit_mem (n : Nat) : hexDigit n ∈ ("0123456789abcdef" : String).data := by
  unfold hexDigit
  split <;> decide

/-- A `find?` whose predicate can only hold of one listed element finds it. -/
theorem find?_eq_some_of_mem_unique {α : Type} (l : List α) (p : α → Bool) (a : α)
    (ha : a ∈ l) (hpa : p a = true)
    (huniq : ∀ x ∈ l, p x = true → x = a) :
    l.find? p = some a := by
  cases hf : l.find? p with
  | none => exact absurd hpa (by simpa using List.find?_eq_none.mp hf a ha)
  | some t =>
      have ht := huniq t (List.mem_of_find?_eq_some hf) (List.find?_some hf)
      rw [ht]

/-- Under a pairwise-distinct key (a unique column), key-equal listed
elements are equal. -/
theorem eq_of_pairwise_key {α : Type} {key : α → String} {l : List α}
    (h : l.Pairwise fun a b => key a ≠ key b) :
    ∀ x ∈ l, ∀ y ∈ l, key x = key y → x = y := by
  intro x hx y hy hxy
  by_contra hne
  exact List.Pairwise.forall (fun _ _ hab => hab.symm) h hx hy hne hxy

/-! Claim theorems. -/

/-- C2: for every password `p`, `verify(p, hash(p))` returns true — verifying
a plaintext against the digest produced by hashing that same plaintext always
succeeds (for any bcrypt core `f` and any 22-character salt, as bcrypt
draws). -/
theorem verify_hash_roundtrip (f : Nat → String → String → String)
    (salt p : String) (hs : salt.data.length = 22) :
    verifyPassword f p (hashPassword f salt p) = .ok true := by
  unfold verifyPassword bcryptCompareWith
  rw [bcryptParse_hashPassword f salt p hs]
  simp

theorem verify_hash_roundtrip_witness :
    ("aaaaaaaaaaaaaaaaaaaaaa" : String).data.length = 22 ∧
    verifyPassword (fun _ _ pw => pw) "pw123!"
        (hashPassword (fun _ _ pw => pw) "aaaaaaaaaaaaaaaaaaaaaa" "pw123!") = .ok true :=
  ⟨by decide, verify_hash_roundtrip (fun _ _ pw => pw) "aaaaaaaaaaaaaaaaaaaaaa" "pw123!" (by decide)⟩

/-- C8: `computeExpiry` (`generateSessionExpiry`) is a pure function of the
current time and its input: at time `T` (milliseconds) the default argument
of 24 hours yields exactly `T + 86400 * 1000` ms, i.e. `T` plus 86400
seconds, and in general it yields `T` plus the requested number of hours. -/
theorem generateSessionExpiry_exact (T : Int) :
    generateSessionExpiry T = T + 86400 * 1000 ∧
    generateSessionExpiry T 24 = T + 86400 * 1000 ∧
    ∀ hours : Int, generateSessionExpiry T hours = T + hours * (60 * 60 * 1000) := by
  refine ⟨?_, ?_, fun hours => by unfold generateSessionExpiry; ring⟩ <;>
    norm_num [generateSessionExpiry]

/-- C10: the two `getValidSession` definitions in the documentation (one
under server/mutation, one under server/queries) are extensionally equal:
for every store state, clock and token both return the same result. -/
theorem getValidSession_duplicates_agree (st : Store) (now : Int) (token : String) :
    getValidSession st now token = getValidSessionQueries st now token := rfl

/-- C9: `generateToken` (`generateSessionToken`) on `n` drawn bytes returns
the hexadecimal encoding of those bytes — a string of exactly `2 * n`
hexadecimal characters, 64 characters for the default `n = 32` — so all
tokens produced with the same byte length have the same fixed length. -/
theorem generateSessionToken_hex (bytes : List Nat) (n : Nat) (h : bytes.length = n) :
    (generateSessionToken bytes).length = 2 * n ∧
    (n = 32 → (generateSessionToken bytes).length = 64) ∧
    ∀ c ∈ (generateSessionToken bytes).data, c ∈ ("0123456789abcdef" : String).data := by
  have hlen : (generateSessionToken bytes).length = 2 * n := by
    show (bytes.flatMap byteToHex).length = 2 * n
    rw [flatMap_byteToHex_length, h]
  refine ⟨hlen, fun h32 => by rw [hlen, h32], ?_⟩
  intro c hc
  have hc' : c ∈ bytes.flatMap byteToHex := hc
  rcases List.mem_flatMap.mp hc' with ⟨b, _, hcb⟩
  simp only [byteToHex, List.mem_cons, List.not_mem_nil, or_false] at hcb
  rcases hcb with rfl | rfl
  · exact hexDigit_mem _
  · exact hexDigit_mem _

/-- C6: for every plaintext and every well-formed digest, `verify` returns
false rather than signalling an error when the plaintext does not match, and
it signals an error exactly when the digest input is malformed (fails to
parse). -/
theorem verifyPassword_mismatch_no_throw (f : Nat → String → String → String)
    (p p' salt : String) (hs : salt.data.length = 22)
    (hne : f 10 salt p ≠ f 10 salt p') :
    verifyPassword f p (hashPassword f salt p') = .ok false ∧
    ∀ d : String, (∃ e, verifyPassword f p d = .error e) ↔ bcryptParse d = none := by
  constructor
  · unfold verifyPassword bcryptCompareWith
    rw [bcryptParse_hashPassword f salt p' hs]
    simp [hne]
  · intro d
    unfold verifyPassword bcryptCompareWith
    rcases hd : bcryptParse d with - | ⟨c, s, stored⟩ <;> simp [hd]

theorem verifyPassword_mismatch_no_throw_witness :
    salt22.data.length = 22 ∧
    idCore 10 salt22 "right" ≠ idCore 10 salt22 "wrong" ∧
    (verifyPassword idCore "right" (hashPassword idCore salt22 "wrong") = .ok false ∧
      ∀ d : String,
        (∃ e, verifyPassword idCore "right" d = .error e) ↔ bcryptParse d = none) :=
  ⟨by decide, by decide,
    verifyPassword_mismatch_no_throw idCore "right" "wrong" salt22 (by decide) (by decide)⟩

/-- C7: `registerUser` persists a user row whose password field is exactly
`hashPassword` of the plaintext — a bcrypt digest embedding cost factor 10
(`$2b$10$` prefix) — and never the plaintext itself (for any plaintext not
itself shaped like a bcrypt digest); the row appended to the store is that
very record, so the invariant holds for every user the flow creates. -/
theorem registerUser_stores_digest (f : Nat → String → String → String)
    (salt : String) (st : Store) (newId email password username : String)
    (hp : password.data.take 4 ≠ ['$', '2', 'b', '$']) :
    ∀ st' u, registerUser f salt st newId email password username = .ok (st', u) →
      u.password = hashPassword f salt password ∧
      u.password.data.take 7 = ['$', '2', 'b', '$', '1', '0', '$'] ∧
      u.password ≠ password ∧
      st'.users = st.users ++ [u] := by
  intro st' u hok
  unfold registerUser dbUserCreate at hok
  dsimp only at hok
  split at hok
  · simp at hok
  · injection hok with h
    obtain ⟨rfl, rfl⟩ := Prod.mk.injEq .. ▸ And.intro (congrArg Prod.fst h) (congrArg Prod.snd h)
    refine ⟨rfl, ?_, ?_, rfl⟩
    · show (hashPassword f salt password).data.take 7 = _
      rw [hashPassword_data]
      rfl
    · intro heq
      apply hp
      have heq' : hashPassword f salt password = password := heq
      rw [← heq', hashPassword_data]
      rfl

theorem registerUser_stores_digest_witness :
    ("pw123!" : String).data.take 4 ≠ ['$', '2', 'b', '$'] ∧
    (regUserRow.password = hashPassword idCore salt22 "pw123!" ∧
      regUserRow.password.data.take 7 = ['$', '2', 'b', '$', '1', '0', '$'] ∧
      regUserRow.password ≠ "pw123!" ∧
      (⟨[regUserRow], []⟩ : Store).users = (⟨[], []⟩ : Store).users ++ [regUserRow]) :=
  ⟨by decide,
    registerUser_stores_digest idCore salt22 ⟨[], []⟩ "u1" "a@x.com" "pw123!" "alice"
      (by decide) ⟨[regUserRow], []⟩ regUserRow (by decide)⟩

theorem generateSessionToken_hex_witness :
    (List.replicate 32 171).length = 32 ∧
    ((generateSessionToken (List.replicate 32 171)).length = 2 * 32 ∧
      (32 = 32 → (generateSessionToken (List.replicate 32 171)).length = 64) ∧
      ∀ c ∈ (generateSessionToken (List.replicate 32 171)).data,
        c ∈ ("0123456789abcdef" : String).data) :=
  ⟨by decide, generateSessionToken_hex (List.replicate 32 171) 32 (by decide)⟩

/-- C1: with the schema's unique columns in force (pairwise-distinct session
tokens and user ids), `getValidSession` returns absent (`none`) both when no
session row carries the token and when the matching row has
`expiresAt ≤ now` — the two cases yield the identical result, so they are
indistinguishable to the caller — and it returns the session joined with its
owning user exactly when the matching row has `expiresAt > now`. -/
theorem getValidSession_characterization (st : Store) (now : Int) (token : String)
    (htok : st.sessions.Pairwise fun a b => a.sessionToken ≠ b.sessionToken)
    (hid : st.users.Pairwise fun a b => a.id ≠ b.id) :
    ((∀ s ∈ st.sessions, s.sessionToken ≠ token) → getValidSession st now token = none) ∧
    (∀ s ∈ st.sessions, s.sessionToken = token → s.expiresAt ≤ now →
        getValidSession st now token = none) ∧
    (∀ s ∈ st.sessions, s.sessionToken = token → now < s.expiresAt →
        ∀ u ∈ st.users, u.id = s.userId → getValidSession st now token = some (s, u)) := by
  refine ⟨?_, ?_, ?_⟩
  · intro hno
    unfold getValidSession
    have hf : (st.sessions.find? fun s => s.sessionToken == token && now < s.expiresAt)
        = none := by
      rw [List.find?_eq_none]
      intro x hx
      simp only [Bool.and_eq_true, beq_iff_eq, decide_eq_true_eq, not_and]
      intro hxt
      exact absurd hxt (hno x hx)
    rw [hf]
  · intro s hs hst hexp
    unfold getValidSession
    have hf : (st.sessions.find? fun s => s.sessionToken == token && now < s.expiresAt)
        = none := by
      rw [List.find?_eq_none]
      intro x hx
      simp only [Bool.and_eq_true, beq_iff_eq, decide_eq_true_eq, not_and]
      intro hxt hlt
      have hxs : x = s := eq_of_pairwise_key htok x hx s hs (hxt.trans hst.symm)
      rw [hxs] at hlt
      exact absurd hlt (not_lt.mpr hexp)
    rw [hf]
  · intro s hs hst hexp u hu huid
    unfold getValidSession
    have hf : (st.sessions.find? fun t => t.sessionToken == token && now < t.expiresAt)
        = some s := by
      refine find?_eq_some_of_mem_unique _ _ s hs ?_ ?_
      · simp [hst, hexp]
      · intro x hx hpx
        simp only [Bool.and_eq_true, beq_iff_eq, decide_eq_true_eq] at hpx
        exact eq_of_pairwise_key htok x hx s hs (hpx.1.trans hst.symm)
    rw [hf]
    dsimp only
    have hfu : (st.users.find? fun v => v.id == s.userId) = some u := by
      refine find?_eq_some_of_mem_unique _ _ u hu ?_ ?_
      · simp [huid]
      · intro x hx hpx
        simp only [beq_iff_eq] at hpx
        exact eq_of_pairwise_key hid x hx u hu (hpx.trans huid.symm)
    rw [hfu]
    rfl

theorem getValidSession_characterization_witness :
    (storeW.sessions.Pairwise fun a b => a.sessionToken ≠ b.sessionToken) ∧
    (storeW.users.Pairwise fun a b => a.id ≠ b.id) ∧
    (((∀ s ∈ storeW.sessions, s.sessionToken ≠ "tok") →
        getValidSession storeW 500 "tok" = none) ∧
      (∀ s ∈ storeW.sessions, s.sessionToken = "tok" → s.expiresAt ≤ 500 →
        getValidSession storeW 500 "tok" = none) ∧
      (∀ s ∈ storeW.sessions, s.sessionToken = "tok" → 500 < s.expiresAt →
        ∀ u ∈ storeW.users, u.id = s.userId →
          getValidSession storeW 500 "tok" = some (s, u))) :=
  ⟨by decide, by decide,
    getValidSession_characterization storeW 500 "tok" (by decide) (by decide)⟩

/-- C3 counterexample: the claim fails on the code — `invalidateSession` is
`prisma.session.delete`, which rejects with record-not-found (P2025) when no
row matches; concretely, calling it on a store with no matching row errors,
and in particular a second call on the same token after a first call deleted
the row errors. -/
theorem invalidateSession_not_idempotent_cex :
    invalidateSession { users := [], sessions := [] } "tok" = .error .recordNotFound ∧
    invalidateSession { users := [], sessions := [sessW] } "tok"
      = .ok ({ users := [], sessions := [] }, sessW) := by
  constructor <;> decide

/-- C3 (amended): `invalidateSession` is not idempotent — for every store and
token, a call finding no matching row (in particular the second call on a
token whose row a first call just deleted) fails with the record-not-found
error instead of completing without error. -/
theorem invalidateSession_errors_when_absent (st : Store) (token : String) :
    ((∀ s ∈ st.sessions, s.sessionToken ≠ token) →
        invalidateSession st token = .error .recordNotFound) ∧
    (∀ st' s, invalidateSession st token = .ok (st', s) →
        invalidateSession st' token = .error .recordNotFound) := by
  constructor
  · intro hno
    unfold invalidateSession
    have hf : (st.sessions.find? fun s => s.sessionToken == token) = none := by
      rw [List.find?_eq_none]
      intro x hx
      simpa using hno x hx
    rw [hf]
  · intro st' s hok
    unfold invalidateSession at hok
    cases hf : st.sessions.find? fun t => t.sessionToken == token with
    | none => rw [hf] at hok; simp at hok
    | some t =>
        rw [hf] at hok
        injection hok with h
        have h1 : ({ st with
            sessions := st.sessions.filter fun t' => !(t'.sessionToken == token) } : Store)
              = st' := congrArg Prod.fst h
        subst h1
        unfold invalidateSession
        have hf2 : ((st.sessions.filter fun t' => !(t'.sessionToken == token)).find?
            fun s' => s'.sessionToken == token) = none := by
          rw [List.find?_eq_none]
          intro x hx
          have hxf := (List.mem_filter.mp hx).2
          simp only [Bool.not_eq_true'] at hxf
          simp [hxf]
        dsimp only
        rw [hf2]

theorem invalidateSession_errors_when_absent_witness :
    invalidateSession { users := [], sessions := [] } "tok" = .error .recordNotFound :=
  (invalidateSession_errors_when_absent { users := [], sessions := [] } "tok").1 (by decide)

/-- C4 counterexample: the claim fails on the code — `createSession` calls
`generateSessionToken()` once and performs a single insert with no retry.
Concretely: the first draw collides with an existing row, the second draw is
fresh, yet `createSession` surfaces the constraint violation even though the
insert with the regenerated token would have succeeded. -/
theorem createSession_no_retry_cex :
    createSession { users := [], sessions := [⟨"s1", "u1", "00", 999, none, none⟩] } "s2"
        (fun i => if i = 0 then [0] else [1]) 0 "u1" = .error .uniqueViolation ∧
    dbSessionCreate { users := [], sessions := [⟨"s1", "u1", "00", 999, none, none⟩] }
        { id := "s2", userId := "u1",
          sessionToken := generateSessionToken ((fun i : Nat => if i = 0 then [0] else [1]) 1),
          expiresAt := generateSessionExpiry 0 }
      = .ok ({ users := [],
               sessions := [⟨"s1", "u1", "00", 999, none, none⟩,
                            ⟨"s2", "u1", "01", 86400000, none, none⟩] },
             ⟨"s2", "u1", "01", 86400000, none, none⟩) := by
  constructor <;> decide

/-- C4 (amended): when the single generated token (the one draw the code
makes) collides with an existing session's token, `createSession` surfaces
the store's unique-constraint error immediately — no token is regenerated
and no retry happens, whatever further draws would produce. -/
theorem createSession_no_retry (st : Store) (newId : String)
    (randBytes : Nat → List Nat) (now : Int) (userId : String)
    (ip ua : Option String) (s : Session) (hs : s ∈ st.sessions)
    (hcol : s.sessionToken = generateSessionToken (randBytes 0)) :
    createSession st newId randBytes now userId ip ua = .error .uniqueViolation := by
  unfold createSession dbSessionCreate
  dsimp only
  rw [if_pos]
  exact List.any_eq_true.mpr ⟨s, hs, by simp [hcol]⟩

theorem createSession_no_retry_witness :
    createSession { users := [], sessions := [⟨"s1", "u1", "00", 999, none, none⟩] } "s2"
        (fun _ => [0]) 0 "u1" none none = .error .uniqueViolation :=
  createSession_no_retry _ "s2" _ 0 "u1" none none
    ⟨"s1", "u1", "00", 999, none, none⟩ (by decide) (by decide)

/-- C5 counterexample: the claim fails on the code — no transaction wraps
registration, so when session issuance fails right after the User row was
created (here: the generated session token collides with a pre-existing
row), the flow surfaces the error while the User row remains persisted in
the final store. -/
theorem registerFlow_not_atomic_cex :
    (registerFlow idCore salt22
        { users := [], sessions := [⟨"s1", "u0", "00", 999, none, none⟩] }
        "u1" "s2" (fun _ => [0]) 0 "a@x.com" "pw123!" "alice").2
      = .error .uniqueViolation ∧
    (registerFlow idCore salt22
        { users := [], sessions := [⟨"s1", "u0", "00", 999, none, none⟩] }
        "u1" "s2" (fun _ => [0]) 0 "a@x.com" "pw123!" "alice").1.users
      = [regUserRow] := by
  constructor <;> decide

/-- C5 (amended): Register is not atomic — whenever `registerUser` has
persisted the User row and the subsequent session issuance fails, the flow
surfaces the error but the created user remains in the resulting store (no
rollback exists in the code). -/
theorem registerFlow_not_atomic (f : Nat → String → String → String) (salt : String)
    (st : Store) (newUserId newSessionId : String) (randBytes : Nat → List Nat)
    (now : Int) (email password username : String) (st1 : Store) (u : User) (e : DbError)
    (hreg : registerUser f salt st newUserId email password username = .ok (st1, u))
    (hsess : createSession st1 newSessionId randBytes now u.id = .error e) :
    registerFlow f salt st newUserId newSessionId randBytes now email password username
      = (st1, .error e) ∧ u ∈ st1.users := by
  constructor
  · unfold registerFlow
    rw [hreg]
    dsimp only
    rw [hsess]
  · unfold registerUser dbUserCreate at hreg
    dsimp only at hreg
    split at hreg
    · simp at hreg
    · injection hreg with h
      have h1 : ({ st with users := st.users ++
          [{ id := newUserId, username := username, email := email,
             password := hashPassword f salt password }] } : Store) = st1 :=
        congrArg Prod.fst h
      have h2 : ({ id := newUserId, username := username, email := email,
                   password := hashPassword f salt password } : User) = u :=
        congrArg Prod.snd h
      subst h1
      rw [← h2]
      simp

theorem registerFlow_not_atomic_witness :
    registerFlow idCore salt22
        { users := [], sessions := [⟨"s1", "u0", "00", 999, none, none⟩] }
        "u1" "s2" (fun _ => [0]) 0 "a@x.com" "pw123!" "alice"
      = ({ users := [regUserRow], sessions := [⟨"s1", "u0", "00", 999, none, none⟩] },
         .error .uniqueViolation) ∧
    regUserRow ∈ ({ users := [regUserRow],
                    sessions := [⟨"s1", "u0", "00", 999, none, none⟩] } : Store).users :=
  registerFlow_not_atomic idCore salt22 _ "u1" "s2" _ 0 "a@x.com" "pw123!" "alice"
    { users := [regUserRow], sessions := [⟨"s1", "u0", "00", 999, none, none⟩] }
    regUserRow .uniqueViolation (by decide) (by decide)

end RyoaAuth
